import Mathlib

/-
  Verification of the godrive / gdrive_path library (marcopaganini/godrive).

  Shallow embedding of the current revision of the library:
    - util.go      : splitPath, ModifiedDate, driveFileOpRetry / driveChildListOpRetry
    - gdrive.go    : Stat, the Gdrive primitives (GdriveFilesGet, GdriveChildrenList,
                     GdriveFilesInsert, GdriveFilesPatch, GdriveFilesTrash),
                     cacheAdd / cacheGet / cacheDel, NUM_TRIES, CACHE_TTL_SECONDS
    - path.go      : Mkdir, Move, SetModifiedDate
    - error.go     : GdrivePathError, IsObjectNotFound

  The remote object store (Google Drive itself) is an external collaborator of
  the library; it is modelled here as a deterministic flat store of objects,
  following section 6 of the design document (getObject, listChildren,
  insertObject, patchObject, trashObject).  Timestamps are modelled as natural
  numbers of nanoseconds (the RFC3339Nano format and its parser are mutually
  inverse on the times the library handles, so the string channel is modelled
  by the parsed value itself).  Wall-clock time for the TTL cache is a natural
  number of seconds carried in the world state; operations themselves do not
  advance it (backoff sleeps are recorded in a trace instead).
-/

namespace Godrive

/-! ## Path splitting (util.go, splitPath)

Go's strings.Split(pathName, "/") on the underlying characters, followed by
dropping empty components, exactly as the source does. -/

/-- The list of path components of a character list: split on the slash
character and drop empty components.  Models the loop in splitPath that
collects the non-empty results of strings.Split(pathName, "/"). -/
def splitSegs (l : List Char) : List (List Char) :=
  (l.splitOn '/').filter (fun s => decide (s ≠ []))

/-- Join components with slashes: strings.Join(ss, "/") on character lists. -/
def joinSegs (ss : List (List Char)) : List Char :=
  ['/'].intercalate ss

/-- Build the (directory, filename, reconstructed path) triple from the list of
non-empty components, exactly as splitPath does: no components gives three
empty strings; a single component x gives ("/", x, "/" ++ x); two or more give
(join of all but the last, last, join of all). -/
def pathFromSegs : List (List Char) → String × String × String
  | [] => ("", "", "")
  | [x] => ("/", ⟨x⟩, ⟨'/' :: x⟩)
  | x :: y :: rest =>
    (⟨joinSegs ((x :: y :: rest).dropLast)⟩,
     ⟨(x :: y :: rest).getLast (by simp)⟩,
     ⟨joinSegs (x :: y :: rest)⟩)

/-- splitPath of util.go: split a Unix-like path into directory, filename and
the completely reconstructed (canonical) path. -/
def splitPath (p : String) : String × String × String :=
  pathFromSegs (splitSegs p.data)

theorem mem_splitSegs_ne_nil {l : List Char} {s : List Char}
    (h : s ∈ splitSegs l) : s ≠ [] := by
  have := List.of_mem_filter h
  simpa using this

theorem mem_splitOn_not_mem {l s : List Char} (h : s ∈ l.splitOn '/') :
    '/' ∉ s := by
  rw [List.splitOn] at h
  induction l generalizing s with
  | nil =>
    simp only [List.splitOnP_nil, List.mem_singleton] at h
    subst h; simp
  | cons c rest ih =>
    rw [List.splitOnP_cons] at h
    by_cases hc : (c == '/') = true
    · rw [if_pos hc] at h
      rcases List.mem_cons.mp h with h | h
      · subst h; simp
      · exact ih h
    · rw [if_neg hc] at h
      rcases hsp : rest.splitOnP (· == '/') with _ | ⟨hd, tl⟩
      · exact absurd hsp (List.splitOnP_ne_nil _ _)
      · rw [hsp, List.modifyHead_cons] at h
        rcases List.mem_cons.mp h with h | h
        · subst h
          intro hmem
          rcases List.mem_cons.mp hmem with h | h
          · exact hc (by rw [h]; simp)
          · exact ih (show hd ∈ rest.splitOnP (fun c => c == '/') by
              rw [hsp]; exact List.mem_cons_self _ _) h
        · exact ih (by rw [hsp]; exact List.mem_cons.mpr (Or.inr h))

theorem mem_splitSegs_not_mem {l s : List Char} (h : s ∈ splitSegs l) :
    '/' ∉ s :=
  mem_splitOn_not_mem (List.mem_of_mem_filter h)

/-- Reconstructing a path from its components and splitting again yields the
same components: the component lists produced by splitSegs are non-empty and
slash-free, on which domain joining is injective. -/
theorem splitSegs_joinSegs {ss : List (List Char)} (hne : ss ≠ [])
    (h1 : ∀ s ∈ ss, s ≠ []) (h2 : ∀ s ∈ ss, '/' ∉ s) :
    splitSegs (joinSegs ss) = ss := by
  unfold splitSegs joinSegs
  rw [List.splitOn_intercalate _ '/' h2 hne]
  exact List.filter_eq_self.mpr (fun s hs => by simpa using h1 s hs)

/-- Splitting the reconstructed path again yields the same components. -/
theorem splitSegs_canon (p : String) :
    splitSegs ((splitPath p).2.2).data = splitSegs p.data := by
  have h1 : ∀ s ∈ splitSegs p.data, s ≠ [] := fun s hs => mem_splitSegs_ne_nil hs
  have h2 : ∀ s ∈ splitSegs p.data, '/' ∉ s := fun s hs => mem_splitSegs_not_mem hs
  unfold splitPath
  rcases hsegs : splitSegs p.data with _ | ⟨x, _ | ⟨y, rest⟩⟩
  · rfl
  · have hx1 : x ≠ [] := h1 x (by rw [hsegs]; exact List.mem_cons_self _ _)
    have hx2 : '/' ∉ x := h2 x (by rw [hsegs]; exact List.mem_cons_self _ _)
    show splitSegs ('/' :: x) = [x]
    unfold splitSegs
    rw [List.splitOn, List.splitOnP_cons, if_pos (by simp)]
    rw [show x.splitOnP (fun c => c == '/') = [x] from
      List.splitOnP_eq_single _ _ (fun c hc hb => hx2 (by rw [eq_of_beq hb] at hc; exact hc))]
    simp [hx1]
  · show splitSegs (joinSegs (x :: y :: rest)) = x :: y :: rest
    apply splitSegs_joinSegs (by simp)
    · intro s hs; exact h1 s (by rw [hsegs]; exact hs)
    · intro s hs; exact h2 s (by rw [hsegs]; exact hs)

/-- splitPath is idempotent on its own reconstructed path output. -/
theorem splitPath_idem (p : String) :
    splitPath ((splitPath p).2.2) = splitPath p := by
  show pathFromSegs (splitSegs ((splitPath p).2.2).data) = pathFromSegs (splitSegs p.data)
  rw [splitSegs_canon]

/-- The directory component splits into all components but the last. -/
theorem splitSegs_dir (p : String) :
    splitSegs ((splitPath p).1).data = (splitSegs p.data).dropLast := by
  have h1 : ∀ s ∈ splitSegs p.data, s ≠ [] := fun s hs => mem_splitSegs_ne_nil hs
  have h2 : ∀ s ∈ splitSegs p.data, '/' ∉ s := fun s hs => mem_splitSegs_not_mem hs
  unfold splitPath
  rcases hsegs : splitSegs p.data with _ | ⟨x, _ | ⟨y, rest⟩⟩
  · rfl
  · show splitSegs (("/") : String).data = []
    decide
  · show splitSegs (joinSegs ((x :: y :: rest).dropLast)) = (x :: y :: rest).dropLast
    apply splitSegs_joinSegs
    · apply List.ne_nil_of_length_pos
      rw [List.length_dropLast]
      simp
    · intro s hs
      exact h1 s (by rw [hsegs]; exact List.dropLast_subset _ hs)
    · intro s hs
      exact h2 s (by rw [hsegs]; exact List.dropLast_subset _ hs)

/-- A path with a non-blank reconstructed form has a non-empty component list. -/
theorem segs_ne_nil_of_canon_ne {p : String} (h : (splitPath p).2.2 ≠ "") :
    splitSegs p.data ≠ [] := by
  intro hsegs
  apply h
  show (pathFromSegs (splitSegs p.data)).2.2 = ""
  rw [hsegs]
  rfl

/-- The reconstructed path of a non-blank path is never the bare root "/". -/
theorem canon_ne_slash {p : String} (h : (splitPath p).2.2 ≠ "") :
    (splitPath p).2.2 ≠ "/" := by
  intro heq
  have hsegs := splitSegs_canon p
  rw [heq] at hsegs
  have : splitSegs (("/") : String).data = [] := by decide
  rw [this] at hsegs
  exact segs_ne_nil_of_canon_ne h hsegs.symm

/-- The directory component is never equal to the full reconstructed path
(when the latter is non-blank): it has one component fewer. -/
theorem dir_ne_canon {p : String} (h : (splitPath p).2.2 ≠ "") :
    (splitPath p).1 ≠ (splitPath p).2.2 := by
  intro heq
  have hd := splitSegs_dir p
  have hc := splitSegs_canon p
  rw [heq, hc] at hd
  have hlen := congrArg List.length hd
  rw [List.length_dropLast] at hlen
  have hne := segs_ne_nil_of_canon_ne h
  have : 0 < (splitSegs p.data).length := List.length_pos.mpr hne
  omega

/-! ## Errors (error.go and the googleapi error type)

GdrivePathError carries an ObjectNotFound flag; remote HTTP errors carry a
numeric status code; all other errors produced with fmt.Errorf are generic. -/

/-- The error universe of the library: GdrivePathError (error.go), an
HTTP-style googleapi error carrying a status code, or a plain formatted
error. -/
inductive GErr where
  | pathErr (objectNotFound : Bool) (msg : String)
  | apiErr (code : Nat) (msg : String)
  | genericErr (msg : String)
deriving DecidableEq, Repr

deriving instance DecidableEq for Except

/-- IsObjectNotFound of error.go: true exactly for a GdrivePathError whose
ObjectNotFound flag is set. -/
def IsObjectNotFound : GErr → Bool
  | .pathErr b _ => b
  | _ => false

/-- The status code of an error, when it is a googleapi (HTTP) error: models
the type assertion err.(*googleapi.Error) in the retry helpers. -/
def errCode : GErr → Option Nat
  | .apiErr code _ => some code
  | _ => none

/-! ## The retry wrapper (util.go, driveFileOpRetry / driveChildListOpRetry)

The wrapped remote call is modelled as a function from the attempt number
(1-based) to its outcome, so that transient failures can be expressed.  The
result records the returned value or error, the number of invocations made,
and the list of sleep durations (milliseconds) performed, in order. -/

/-- Total number of tries when a retryable error is received (includes the
first attempt): NUM_TRIES of gdrive.go. -/
def NUM_TRIES : Nat := 3

/-- The retry loop body shared by driveFileOpRetry and driveChildListOpRetry:
for try = 1 .. NUM_TRIES invoke fn; on success return; on an error carrying an
HTTP status code satisfying code over 500 or code under 599 (the source
condition, written with an or), sleep 1000*try milliseconds and retry,
returning the last error once attempts are exhausted; on any other error
return it immediately. -/
def retryGo (fn : Nat → Except GErr α) :
    Nat → Nat → GErr → Nat → List Nat → Except GErr α × Nat × List Nat
  | 0, _, lastErr, calls, sleeps => (.error lastErr, calls, sleeps)
  | r + 1, tryN, _, calls, sleeps =>
    match fn tryN with
    | .ok a => (.ok a, calls + 1, sleeps)
    | .error e =>
      match errCode e with
      | some code =>
        if 500 ≤ code ∨ code ≤ 599 then
          retryGo fn r (tryN + 1) e (calls + 1) (sleeps ++ [1000 * tryN])
        else (.error e, calls + 1, sleeps)
      | none => (.error e, calls + 1, sleeps)

/-- driveFileOpRetry and driveChildListOpRetry of util.go are this same loop
at two result types.  The error accumulator plays the role of the err
variable that the loop leaves behind when attempts are exhausted; its initial
value is never returned because the loop always runs at least once. -/
def driveOpRetry (fn : Nat → Except GErr α) : Except GErr α × Nat × List Nat :=
  retryGo fn NUM_TRIES 1 (.genericErr "no attempt made") 0 []


/-! ## The remote object store (external collaborator, design document sec. 6)

Modelled from the spec: the store is a flat list of objects addressed by
identifier, with list-children filtered by parent, title, trashed flag and an
optional folder-type constraint; patch updates title, modification date and
the parent set; trash sets the trashed flag.  The library under test never
sees more of the store than these five calls. -/

/-- Mime-Type used by Google Drive to indicate a folder. -/
def MIMETYPE_FOLDER : String := "application/vnd.google-apps.folder"

/-- A remote object handle (*drive.File): identifier, title, MIME type,
modification timestamp in nanoseconds, parent identifiers, trashed flag. -/
structure DriveFile where
  id : String
  title : String
  mimeType : String
  modifiedDate : Nat
  parents : List String
  trashed : Bool
deriving DecidableEq, Repr

/-- IsDir of util.go. -/
def IsDir (f : DriveFile) : Bool :=
  f.mimeType == MIMETYPE_FOLDER

/-- driveFileOpRetry of util.go: the retry loop around a call returning a
*drive.File. -/
def driveFileOpRetry (fn : Nat → Except GErr DriveFile) :
    Except GErr DriveFile × Nat × List Nat :=
  driveOpRetry fn

/-- driveChildListOpRetry of util.go: the retry loop around a call returning
a child list (a child reference is modelled by the identifier it carries). -/
def driveChildListOpRetry (fn : Nat → Except GErr (List String)) :
    Except GErr (List String) × Nat × List Nat :=
  driveOpRetry fn

/-- The folder-type constraint of a children query: the three query shapes
Stat builds are title-and-not-trashed with no type constraint, with
mimeType equal to the folder type, or with mimeType different from it. -/
inductive MimeFilter where
  | anyMime
  | eqFolder
  | neFolder
deriving DecidableEq, Repr

/-- A children-listing query as constructed by Stat: a title to match
(always conjoined with trashed = false) and a folder-type constraint.  The
source passes segment titles through escapeQuotes before embedding them in
the query text and the store parses the escape back, so the query is
modelled by the raw title. -/
structure Query where
  title : String
  mime : MimeFilter
deriving DecidableEq, Repr

def mimeMatch : MimeFilter → String → Bool
  | .anyMime, _ => true
  | .eqFolder, m => m == MIMETYPE_FOLDER
  | .neFolder, m => m != MIMETYPE_FOLDER

/-- The remote store state: the objects and a counter for fresh identifiers. -/
structure Store where
  files : List DriveFile
  nextId : Nat
deriving DecidableEq, Repr

def findFile : List DriveFile → String → Option DriveFile
  | [], _ => none
  | f :: rest, fileId => if f.id = fileId then some f else findFile rest fileId

def setFile : List DriveFile → String → DriveFile → List DriveFile
  | [], _, _ => []
  | f :: rest, fileId, g =>
    if f.id = fileId then g :: rest else f :: setFile rest fileId g

/-- getObject: fetch by identifier; a missing identifier is an HTTP 404. -/
def svcFilesGet (s : Store) (fileId : String) : Except GErr (DriveFile × Store) :=
  match findFile s.files fileId with
  | some f => .ok (f, s)
  | none => .error (.apiErr 404 "File not found")

/-- listChildren: the identifiers of the non-trashed children of a parent
matching the query title and type constraint. -/
def listChildren (s : Store) (parentId : String) (q : Query) : List String :=
  (s.files.filter (fun f =>
    f.parents.contains parentId && (f.title == q.title) && (!f.trashed) &&
      mimeMatch q.mime f.mimeType)).map (fun f => f.id)

/-- insertObject: create a fresh object with the given title, parent and MIME
type.  Whether content is uploaded with it (the reader argument of
GdriveFilesInsert) does not affect the resulting metadata. -/
def svcFilesInsert (s : Store) (_hasMedia : Bool) (title parentId mimeType : String) :
    Except GErr (DriveFile × Store) :=
  let f : DriveFile :=
    { id := "obj" ++ toString s.nextId
      title := title
      mimeType := mimeType
      modifiedDate := 0
      parents := if parentId = "" then [] else [parentId]
      trashed := false }
  .ok (f, { files := s.files ++ [f], nextId := s.nextId + 1 })

/-- The parent set after a patch: parents not removed, plus the added parents
that are not already present. -/
def patchParents (ps addIds removeIds : List String) : List String :=
  let kept := ps.filter (fun p => !removeIds.contains p)
  kept ++ addIds.filter (fun p => !kept.contains p)

/-- patchObject: update title (when non-blank), modification date (when
given) and the parent set of an existing object. -/
def svcFilesPatch (s : Store) (fileId title : String) (modifiedDate : Option Nat)
    (addParentIds removeParentIds : List String) : Except GErr (DriveFile × Store) :=
  match findFile s.files fileId with
  | none => .error (.apiErr 404 "File not found")
  | some f =>
    let g : DriveFile :=
      { f with
        title := if title = "" then f.title else title
        modifiedDate := modifiedDate.getD f.modifiedDate
        parents := patchParents f.parents addParentIds removeParentIds }
    .ok (g, { s with files := setFile s.files fileId g })

/-- trashObject: set the trashed flag of an existing object. -/
def svcFilesTrash (s : Store) (fileId : String) : Except GErr (DriveFile × Store) :=
  match findFile s.files fileId with
  | none => .error (.apiErr 404 "File not found")
  | some f =>
    let g : DriveFile := { f with trashed := true }
    .ok (g, { s with files := setFile s.files fileId g })

/-! ## The library state: caches, call trace, clock

One Gdrive instance holds two TTL caches (gdrive.go): filecache for resolved
*drive.File objects keyed by path, and childcache for intermediate
*drive.ChildReference lookups keyed by path prefix (a child reference is
modelled by the identifier it carries).  The world also records every remote
call and every backoff sleep, and carries the wall clock (seconds). -/

/-- Default cache TTL (seconds). -/
def CACHE_TTL_SECONDS : Nat := 60

/-- A remote call as issued by the Gdrive primitives, for the trace. -/
inductive RemoteCall where
  | filesGet (fileId : String)
  | childrenList (parentId : String) (q : Query)
  | filesInsert (hasMedia : Bool) (title parentId mimeType : String)
  | filesPatch (fileId title : String) (modifiedDate : Option Nat)
      (addParentIds removeParentIds : List String)
  | filesTrash (fileId : String)
deriving DecidableEq, Repr

/-- The complete state: remote store, the two caches (each entry carries the
timestamp at which it was added), the trace of remote calls and sleeps, and
the current time in seconds. -/
structure World where
  store : Store
  filecache : List (String × DriveFile × Nat)
  childcache : List (String × String × Nat)
  calls : List RemoteCall
  sleeps : List Nat
  now : Nat
deriving DecidableEq, Repr

/-- Lookup in an association list (Go map read). -/
def mapGet : List (String × α) → String → Option α
  | [], _ => none
  | (k, v) :: rest, key => if k = key then some v else mapGet rest key

/-- Delete from an association list (Go map delete). -/
def mapDel : List (String × α) → String → List (String × α)
  | [], _ => []
  | (k, v) :: rest, key => if k = key then mapDel rest key else (k, v) :: mapDel rest key

/-- Replace in an association list (Go map write). -/
def mapPut (m : List (String × α)) (key : String) (v : α) : List (String × α) :=
  (key, v) :: mapDel m key

/-- cacheAdd on the file cache: store the object with the current time. -/
def cacheAddFile (key : String) (f : DriveFile) (w : World) : World :=
  { w with filecache := mapPut w.filecache key (f, w.now) }

/-- cacheDel on the file cache. -/
def cacheDelFile (key : String) (w : World) : World :=
  { w with filecache := mapDel w.filecache key }

/-- cacheGet on the file cache: a hit only while now does not exceed the entry
timestamp plus the TTL; an expired entry is evicted and reported absent. -/
def cacheGetFile (key : String) (w : World) : Option DriveFile × World :=
  match mapGet w.filecache key with
  | some (f, ts) =>
    if w.now > ts + CACHE_TTL_SECONDS then (none, cacheDelFile key w) else (some f, w)
  | none => (none, w)

/-- cacheAdd on the child cache. -/
def cacheAddChild (key : String) (childId : String) (w : World) : World :=
  { w with childcache := mapPut w.childcache key (childId, w.now) }

/-- cacheGet on the child cache. -/
def cacheGetChild (key : String) (w : World) : Option String × World :=
  match mapGet w.childcache key with
  | some (childId, ts) =>
    if w.now > ts + CACHE_TTL_SECONDS then
      (none, { w with childcache := mapDel w.childcache key })
    else (some childId, w)
  | none => (none, w)

/-! ## The Gdrive primitives (gdrive.go), each routed through the retry loop

Every primitive logs the remote call it issues.  The store itself is
deterministic, so a failing call fails identically on each retry attempt;
backoff sleeps are recorded in the sleeps trace and do not advance the TTL
clock (the library sleeps at most six seconds total, which no claim ties to
the sixty-second TTL). -/

/-- The retry loop around a remote call against the deterministic store:
the world-state counterpart of retryGo.  Each invocation logs the call; a
retried invocation also logs its backoff sleep. -/
def retryWorldGo (label : RemoteCall) (f : Store → Except GErr (α × Store)) :
    Nat → Nat → GErr → World → Except GErr α × World
  | 0, _, lastErr, w => (.error lastErr, w)
  | r + 1, tryN, _, w =>
    match f w.store with
    | .ok (a, s) => (.ok a, { w with store := s, calls := w.calls ++ [label] })
    | .error e =>
      match errCode e with
      | some code =>
        if 500 ≤ code ∨ code ≤ 599 then
          retryWorldGo label f r (tryN + 1) e
            { w with calls := w.calls ++ [label], sleeps := w.sleeps ++ [1000 * tryN] }
        else (.error e, { w with calls := w.calls ++ [label] })
      | none => (.error e, { w with calls := w.calls ++ [label] })

def retryWorld (label : RemoteCall) (f : Store → Except GErr (α × Store))
    (w : World) : Except GErr α × World :=
  retryWorldGo label f NUM_TRIES 1 (.genericErr "no attempt made") w

/-- Wrap a failed result in a generic formatted error (fmt.Errorf), as the
primitives that add context do. -/
def wrapErr (msg : String) : Except GErr α × World → Except GErr α × World
  | (.ok a, w) => (.ok a, w)
  | (.error _, w) => (.error (.genericErr msg), w)

/-- GdriveFilesGet of gdrive.go. -/
def GdriveFilesGet (fileId : String) (w : World) : Except GErr DriveFile × World :=
  wrapErr "GdriveFilesGet: Error retrieving File Metadata"
    (retryWorld (.filesGet fileId) (fun s => svcFilesGet s fileId) w)

/-- GdriveChildrenList of gdrive.go (a single page: the store returns all
matching children at once, so the pagination loop runs exactly once). -/
def GdriveChildrenList (parentId : String) (q : Query) (w : World) :
    Except GErr (List String) × World :=
  wrapErr "GdriveChildrenList: fetching Id"
    (retryWorld (.childrenList parentId q) (fun s => .ok (listChildren s parentId q, s)) w)

/-- GdriveFilesInsert of gdrive.go. -/
def GdriveFilesInsert (hasMedia : Bool) (title parentId mimeType : String)
    (w : World) : Except GErr DriveFile × World :=
  retryWorld (.filesInsert hasMedia title parentId mimeType)
    (fun s => svcFilesInsert s hasMedia title parentId mimeType) w

/-- GdriveFilesPatch of gdrive.go. -/
def GdriveFilesPatch (fileId title : String) (modifiedDate : Option Nat)
    (addParentIds removeParentIds : List String) (w : World) :
    Except GErr DriveFile × World :=
  retryWorld (.filesPatch fileId title modifiedDate addParentIds removeParentIds)
    (fun s => svcFilesPatch s fileId title modifiedDate addParentIds removeParentIds) w

/-- GdriveFilesTrash of gdrive.go. -/
def GdriveFilesTrash (fileId : String) (w : World) : Except GErr DriveFile × World :=
  retryWorld (.filesTrash fileId) (fun s => svcFilesTrash s fileId) w

/-! ## Stat (gdrive.go): path resolution -/

/-- The directory walk of Stat: one iteration per element of
strings.Split(dirs, "/").  The accumulated prefix (done) rebuilds the ppath
key strings.Join(subdirs[0:idx+1], "/") for the child cache; on a cache miss
the parent is first checked for a non-folder child of that title (a file in
the middle of the path is a hard error), then for folder children: none is
the ObjectNotFound condition, more than one is the duplicate error, exactly
one becomes the new parent and is stored in the child cache. -/
def statWalk : List (List Char) → List (List Char) → String → World →
    Except GErr String × World
  | [], _, parent, w => (.ok parent, w)
  | elem :: rest, done, parent, w =>
    let ppath : String := ⟨joinSegs (done ++ [elem])⟩
    match cacheGetChild ppath w with
    | (some childId, w1) => statWalk rest (done ++ [elem]) childId w1
    | (none, w1) =>
      match GdriveChildrenList parent ⟨⟨elem⟩, .neFolder⟩ w1 with
      | (.error e, w2) => (.error e, w2)
      | (.ok (_ :: _), w2) =>
        (.error (.genericErr "Stat: Element in path is a file, not a directory"), w2)
      | (.ok [], w2) =>
        match GdriveChildrenList parent ⟨⟨elem⟩, .eqFolder⟩ w2 with
        | (.error e, w3) => (.error e, w3)
        | (.ok [], w3) => (.error (.pathErr true "Stat: Missing directory in path"), w3)
        | (.ok [c], w3) => statWalk rest (done ++ [elem]) c (cacheAddChild ppath c w3)
        | (.ok (_ :: _ :: _), w3) =>
          (.error (.genericErr "Stat: More than one directory exists in path"), w3)

/-- The leaf lookup of Stat: the last path element may be a file or a
directory (no type filter); none is ObjectNotFound, more than one is the
duplicate error. -/
def statLeaf (filename parent : String) (w : World) : Except GErr String × World :=
  if filename = "" then (.ok parent, w)
  else
    match GdriveChildrenList parent ⟨filename, .anyMime⟩ w with
    | (.error e, w1) => (.error e, w1)
    | (.ok [], w1) => (.error (.pathErr true "Stat: Object not found"), w1)
    | (.ok [c], w1) => (.ok c, w1)
    | (.ok (_ :: _ :: _), w1) =>
      (.error (.genericErr "Stat: More than one file/directory exists in path"), w1)

/-- The body of Stat past the file-cache lookup: the special case for "/" (a
direct fetch of the well-known identifier root, not cached), sanitization,
the directory walk (skipped when the directory part is "/"), the leaf lookup,
and the final fetch of the resolved identifier, which is stored in the file
cache keyed by the reconstructed path. -/
def statCore (drivePath : String) (w1 : World) : Except GErr DriveFile × World :=
  if drivePath = "/" then GdriveFilesGet "root" w1
  else
    match splitPath drivePath with
    | (dirs, filename, canon) =>
      if canon = "" then (.error (.genericErr "Stat: Trying to stat blank path"), w1)
      else
        match (if dirs = "/" then (.ok "root", w1)
               else statWalk (dirs.data.splitOn '/') [] "root" w1) with
        | (.error e, w2) => (.error e, w2)
        | (.ok parent, w2) =>
          match statLeaf filename parent w2 with
          | (.error e, w3) => (.error e, w3)
          | (.ok objId, w3) =>
            match GdriveFilesGet objId w3 with
            | (.error e, w4) => (.error e, w4)
            | (.ok f, w4) => (.ok f, cacheAddFile canon f w4)

/-- Stat of gdrive.go: a file-cache lookup on the raw path, then the
resolution body. -/
def Stat (drivePath : String) (w : World) : Except GErr DriveFile × World :=
  match cacheGetFile drivePath w with
  | (some f, w1) => (.ok f, w1)
  | (none, w1) => statCore drivePath w1

/-! ## The path mutators (path.go): Mkdir, Move, SetModifiedDate -/

/-- Mkdir of path.go: blank paths are an error; an existing object at the
path is returned unchanged; only the ObjectNotFound condition leads to
resolving the parent (root when the directory part is blank) and inserting a
new folder object, which is stored in the file cache. -/
def Mkdir (drivePath0 : String) (w : World) : Except GErr DriveFile × World :=
  match splitPath drivePath0 with
  | (pathname, dirname, drivePath) =>
    if drivePath = "" then
      (.error (.genericErr "Mkdir: Attempting to create a blank directory"), w)
    else
      match Stat drivePath w with
      | (.ok f, w1) => (.ok f, w1)
      | (.error e, w1) =>
        if IsObjectNotFound e = false then (.error e, w1)
        else
          match (if pathname = "" then ((.ok "root", w1) : Except GErr String × World)
                 else
                   match Stat pathname w1 with
                   | (.ok pf, w2) => (.ok pf.id, w2)
                   | (.error e2, w2) => (.error e2, w2)) with
          | (.error e2, w2) => (.error e2, w2)
          | (.ok parentId, w2) =>
            match GdriveFilesInsert false dirname parentId MIMETYPE_FOLDER w2 with
            | (.error e3, w3) => (.error e3, w3)
            | (.ok nf, w3) => (.ok nf, cacheAddFile drivePath nf w3)

/-- The tail of Move: patch the source object (new title, add the destination
parent, remove the source parent), delete the file-cache entry for the source
path even when the patch failed, then store the patched object under the
destination path. -/
def moveTail (srcId dstFile dstDirId srcParentId srcPath dstPath : String)
    (w : World) : Except GErr DriveFile × World :=
  match GdriveFilesPatch srcId dstFile none [dstDirId] [srcParentId] w with
  | (r, w1) =>
    let w2 := cacheDelFile srcPath w1
    match r with
    | .error _ => (.error (.genericErr "Move: Error moving file to destination"), w2)
    | .ok f => (.ok f, cacheAddFile dstPath f w2)

/-- Move of path.go: resolve the source parent, the source object and the
destination parent; stat the destination path and, whenever an object is
found there, trash it (whatever it is) and evict its cache entry; then run
the patch tail. -/
def Move (srcPath0 dstPath0 : String) (w : World) : Except GErr DriveFile × World :=
  match splitPath srcPath0, splitPath dstPath0 with
  | (srcDir, _, srcPath), (dstDir, dstFile, dstPath) =>
    if srcPath = "" ∨ dstPath = "" then
      (.error (.genericErr "Move: Source and destination paths must be set"), w)
    else
      match Stat srcDir w with
      | (.error e, w1) => (.error e, w1)
      | (.ok srcParentObj, w1) =>
        match Stat srcPath w1 with
        | (.error e, w2) => (.error e, w2)
        | (.ok srcObj, w2) =>
          match Stat dstDir w2 with
          | (.error e, w3) => (.error e, w3)
          | (.ok dstDirObj, w3) =>
            match Stat dstPath w3 with
            | (.ok dstFileObj, w4) =>
              match GdriveFilesTrash dstFileObj.id w4 with
              | (.error _, w5) =>
                (.error (.genericErr "Move: Error removing destination file"), w5)
              | (.ok _, w5) =>
                moveTail srcObj.id dstFile dstDirObj.id srcParentObj.id
                  srcPath dstPath (cacheDelFile dstPath w5)
            | (.error e, w4) =>
              if IsObjectNotFound e = false then (.error e, w4)
              else
                moveTail srcObj.id dstFile dstDirObj.id srcParentObj.id
                  srcPath dstPath w4

/-- Nanoseconds per second, for date truncation. -/
def NANOS_PER_SECOND : Nat := 1000000000

/-- Truncation of a nanosecond timestamp to whole seconds (Time.Truncate of
one second on the non-negative times the library handles). -/
def truncSec (t : Nat) : Nat := t - t % NANOS_PER_SECOND

/-- ModifiedDate of util.go: parse the object's modification date and
truncate to whole seconds. -/
def ModifiedDate (f : DriveFile) : Nat := truncSec f.modifiedDate

/-- SetModifiedDate of path.go: resolve the object, truncate the requested
time to whole seconds and add one nanosecond (so the RFC3339Nano output keeps
its sub-second field), patch only the modification date, and refresh the
file-cache entry under the path as given. -/
def SetModifiedDate (drivePath : String) (modifiedDate : Nat) (w : World) :
    Except GErr DriveFile × World :=
  match Stat drivePath w with
  | (.error e, w1) => (.error e, w1)
  | (.ok f, w1) =>
    let rfcDate := truncSec modifiedDate + 1
    match GdriveFilesPatch f.id "" (some rfcDate) [] [] w1 with
    | (.error e, w2) => (.error e, w2)
    | (.ok g, w2) => (.ok g, cacheAddFile drivePath g w2)

/-- Advance the wall clock between operations (nothing else changes). -/
def advanceTime (d : Nat) (w : World) : World := { w with now := w.now + d }

/-! ## Infrastructure lemmas -/

theorem mapGet_mapDel_self (m : List (String × α)) (k : String) :
    mapGet (mapDel m k) k = none := by
  induction m with
  | nil => rfl
  | cons e rest ih =>
    rcases e with ⟨k', v⟩
    by_cases hk : k' = k
    · simp [mapDel, hk, ih]
    · simp [mapDel, hk, mapGet, ih]

theorem mapGet_mapDel_ne (m : List (String × α)) {k k' : String} (h : k' ≠ k) :
    mapGet (mapDel m k) k' = mapGet m k' := by
  induction m with
  | nil => rfl
  | cons e rest ih =>
    rcases e with ⟨k0, v⟩
    rw [mapDel]
    by_cases hk : k0 = k
    · rw [if_pos hk, ih, mapGet, if_neg (fun hh => h (by rw [← hh, hk]))]
    · rw [if_neg hk, mapGet, mapGet]
      by_cases hk' : k0 = k'
      · rw [if_pos hk', if_pos hk']
      · rw [if_neg hk', if_neg hk', ih]

theorem mapGet_mapPut_self (m : List (String × α)) (k : String) (v : α) :
    mapGet (mapPut m k v) k = some v := by
  simp [mapPut, mapGet]

theorem mapGet_mapPut_ne (m : List (String × α)) {k k' : String} (v : α)
    (h : k' ≠ k) : mapGet (mapPut m k v) k' = mapGet m k' := by
  rw [mapPut, mapGet, if_neg (fun hh : k = k' => h hh.symm), mapGet_mapDel_ne m h]

theorem findFile_id {l : List DriveFile} {k : String} {f : DriveFile}
    (h : findFile l k = some f) : f.id = k := by
  induction l with
  | nil => simp [findFile] at h
  | cons g rest ih =>
    by_cases hk : g.id = k
    · simp [findFile, hk] at h
      rw [← h]; exact hk
    · simp [findFile, hk] at h
      exact ih h

theorem findFile_setFile_self {l : List DriveFile} {k : String} {f : DriveFile}
    (h : findFile l k = some f) (g : DriveFile) (hg : g.id = k) :
    findFile (setFile l k g) k = some g := by
  induction l with
  | nil => simp [findFile] at h
  | cons e rest ih =>
    by_cases hk : e.id = k
    · simp [setFile, hk, findFile, hg]
    · simp [setFile, hk, findFile] at h ⊢
      exact ih h

/-- One deterministic remote call: when the call succeeds against the current
store, the retry loop returns after its first invocation, logging exactly one
call and no sleep. -/
theorem retryWorldGo_ok {f : Store → Except GErr (α × Store)}
    {label : RemoteCall} {w : World} {a : α} {s : Store}
    (h : f w.store = .ok (a, s)) (n tryN : Nat) (lastErr : GErr) :
    retryWorldGo label f (n + 1) tryN lastErr w =
      (.ok a, { w with store := s, calls := w.calls ++ [label] }) := by
  simp [retryWorldGo, h]

theorem retryWorld_ok {f : Store → Except GErr (α × Store)}
    {label : RemoteCall} {w : World} {a : α} {s : Store}
    (h : f w.store = .ok (a, s)) :
    retryWorld label f w =
      (.ok a, { w with store := s, calls := w.calls ++ [label] }) := by
  rw [retryWorld, show (NUM_TRIES : Nat) = 2 + 1 from rfl]
  exact retryWorldGo_ok h 2 1 _

/-- The retry loop only succeeds when the underlying call succeeds against
the (unchanged) store, and then it did so on the first invocation. -/
theorem retryWorldGo_ok_inv {f : Store → Except GErr (α × Store)}
    {label : RemoteCall} {a : α} {w' : World} :
    ∀ {n tryN : Nat} {lastErr : GErr} {w : World},
      retryWorldGo label f n tryN lastErr w = (.ok a, w') →
      ∃ s, f w.store = .ok (a, s) ∧
        w' = { w with store := s, calls := w.calls ++ [label] } := by
  intro n
  induction n with
  | zero => intro tryN lastErr w h; simp [retryWorldGo] at h
  | succ n ih =>
    intro tryN lastErr w h
    rcases hf : f w.store with e | ⟨a', s'⟩
    · -- the call fails deterministically: every branch of the loop body
      -- ends in an error or recurses on a world with the same store
      exfalso
      simp only [retryWorldGo, hf] at h
      rcases hcode : errCode e with _ | code
      · simp only [hcode] at h
        exact Except.noConfusion (congrArg Prod.fst h)
      · simp only [hcode] at h
        by_cases hrange : 500 ≤ code ∨ code ≤ 599
        · rw [if_pos hrange] at h
          rcases ih h with ⟨s, hs, _⟩
          simp [hf] at hs
        · rw [if_neg hrange] at h
          exact Except.noConfusion (congrArg Prod.fst h)
    · simp only [retryWorldGo, hf] at h
      have ha : a' = a := Except.ok.inj (congrArg Prod.fst h)
      subst ha
      have hw : ({ w with store := s', calls := w.calls ++ [label] } : World) = w' :=
        congrArg Prod.snd h
      exact ⟨s', rfl, hw.symm⟩

theorem retryWorld_ok_inv {f : Store → Except GErr (α × Store)}
    {label : RemoteCall} {a : α} {w w' : World}
    (h : retryWorld label f w = (.ok a, w')) :
    ∃ s, f w.store = .ok (a, s) ∧
      w' = { w with store := s, calls := w.calls ++ [label] } :=
  retryWorldGo_ok_inv h

/-- The retry loop never touches the caches or the clock. -/
theorem retryWorldGo_frame {f : Store → Except GErr (α × Store)}
    {label : RemoteCall} :
    ∀ {n tryN : Nat} {lastErr : GErr} {w : World} {r : Except GErr α} {w' : World},
      retryWorldGo label f n tryN lastErr w = (r, w') →
      w'.filecache = w.filecache ∧ w'.childcache = w.childcache ∧
        w'.now = w.now := by
  intro n
  induction n with
  | zero =>
    intro tryN lastErr w r w' h
    simp only [retryWorldGo] at h
    have hw : w = w' := congrArg Prod.snd h
    subst hw
    exact ⟨rfl, rfl, rfl⟩
  | succ n ih =>
    intro tryN lastErr w r w' h
    rcases hf : f w.store with e | ⟨a', s'⟩
    · simp only [retryWorldGo, hf] at h
      rcases hcode : errCode e with _ | code
      · simp only [hcode] at h
        have hw : ({ w with calls := w.calls ++ [label] } : World) = w' :=
          congrArg Prod.snd h
        rw [← hw]
        exact ⟨rfl, rfl, rfl⟩
      · simp only [hcode] at h
        by_cases hrange : 500 ≤ code ∨ code ≤ 599
        · rw [if_pos hrange] at h
          rcases ih h with ⟨h1, h2, h3⟩
          exact ⟨h1, h2, h3⟩
        · rw [if_neg hrange] at h
          have hw : ({ w with calls := w.calls ++ [label] } : World) = w' :=
            congrArg Prod.snd h
          rw [← hw]
          exact ⟨rfl, rfl, rfl⟩
    · simp only [retryWorldGo, hf] at h
      have hw : ({ w with store := s', calls := w.calls ++ [label] } : World) = w' :=
        congrArg Prod.snd h
      rw [← hw]
      exact ⟨rfl, rfl, rfl⟩

/-- Children listings always succeed against the deterministic store and log
exactly one call. -/
theorem GdriveChildrenList_eq (parentId : String) (q : Query) (w : World) :
    GdriveChildrenList parentId q w =
      (.ok (listChildren w.store parentId q),
       { w with calls := w.calls ++ [.childrenList parentId q] }) := by
  have h : (fun s => (.ok (listChildren s parentId q, s) :
      Except GErr (List String × Store))) w.store =
      .ok (listChildren w.store parentId q, w.store) := rfl
  rw [GdriveChildrenList, retryWorld_ok h]
  rfl

/-- Fetching an existing object succeeds, logging one call and changing
nothing else. -/
theorem GdriveFilesGet_ok {w : World} {fileId : String} {f : DriveFile}
    (h : findFile w.store.files fileId = some f) :
    GdriveFilesGet fileId w =
      (.ok f, { w with calls := w.calls ++ [.filesGet fileId] }) := by
  have hsvc : svcFilesGet w.store fileId = .ok (f, w.store) := by
    rw [svcFilesGet, h]
  rw [GdriveFilesGet, retryWorld_ok hsvc]
  rfl

theorem GdriveFilesGet_inv {w w' : World} {fileId : String} {f : DriveFile}
    (h : GdriveFilesGet fileId w = (.ok f, w')) :
    findFile w.store.files fileId = some f ∧
      w' = { w with calls := w.calls ++ [.filesGet fileId] } := by
  rw [GdriveFilesGet] at h
  rcases hr : retryWorld (.filesGet fileId) (fun s => svcFilesGet s fileId) w with ⟨r, w1⟩
  rw [hr] at h
  rcases r with e | a
  · simp [wrapErr] at h
  · simp [wrapErr] at h
    rcases retryWorld_ok_inv hr with ⟨s, hs, hw⟩
    rw [svcFilesGet] at hs
    rcases hfind : findFile w.store.files fileId with _ | g <;> rw [hfind] at hs
    · exact Except.noConfusion hs
    · simp at hs
      constructor
      · rw [hs.1, h.1]
      · rw [← h.2, hw, ← hs.2]

/-- Inserting always succeeds: the created object and the store extension. -/
theorem GdriveFilesInsert_eq (hasMedia : Bool) (title parentId mimeType : String)
    (w : World) :
    GdriveFilesInsert hasMedia title parentId mimeType w =
      (.ok
        { id := "obj" ++ toString w.store.nextId
          title := title
          mimeType := mimeType
          modifiedDate := 0
          parents := if parentId = "" then [] else [parentId]
          trashed := false },
       { w with
          store :=
            { files := w.store.files ++
                [{ id := "obj" ++ toString w.store.nextId
                   title := title
                   mimeType := mimeType
                   modifiedDate := 0
                   parents := if parentId = "" then [] else [parentId]
                   trashed := false }]
              nextId := w.store.nextId + 1 }
          calls := w.calls ++ [.filesInsert hasMedia title parentId mimeType] }) := by
  have h : svcFilesInsert w.store hasMedia title parentId mimeType =
      .ok (_, _) := rfl
  rw [GdriveFilesInsert, retryWorld_ok h]

theorem GdriveFilesPatch_inv {w w' : World} {fileId title : String}
    {modifiedDate : Option Nat} {addParentIds removeParentIds : List String}
    {g : DriveFile}
    (h : GdriveFilesPatch fileId title modifiedDate addParentIds removeParentIds w =
      (.ok g, w')) :
    ∃ f, findFile w.store.files fileId = some f ∧
      g = { f with
              title := if title = "" then f.title else title
              modifiedDate := modifiedDate.getD f.modifiedDate
              parents := patchParents f.parents addParentIds removeParentIds } ∧
      w' = { w with
              store := { w.store with files := setFile w.store.files fileId g }
              calls := w.calls ++
                [.filesPatch fileId title modifiedDate addParentIds removeParentIds] } := by
  rw [GdriveFilesPatch] at h
  rcases retryWorld_ok_inv h with ⟨s, hs, hw⟩
  rw [svcFilesPatch] at hs
  rcases hfind : findFile w.store.files fileId with _ | f <;> rw [hfind] at hs
  · exact Except.noConfusion hs
  · simp at hs
    exact ⟨f, rfl, hs.1.symm, by rw [hw, ← hs.2, hs.1]⟩

theorem GdriveFilesTrash_inv {w w' : World} {fileId : String} {g : DriveFile}
    (h : GdriveFilesTrash fileId w = (.ok g, w')) :
    ∃ f, findFile w.store.files fileId = some f ∧
      g = { f with trashed := true } ∧
      w' = { w with
              store := { w.store with files := setFile w.store.files fileId g }
              calls := w.calls ++ [.filesTrash fileId] } := by
  rw [GdriveFilesTrash] at h
  rcases retryWorld_ok_inv h with ⟨s, hs, hw⟩
  rw [svcFilesTrash] at hs
  rcases hfind : findFile w.store.files fileId with _ | f <;> rw [hfind] at hs
  · exact Except.noConfusion hs
  · simp at hs
    exact ⟨f, rfl, hs.1.symm, by rw [hw, ← hs.2, hs.1]⟩

theorem cacheGetFile_none {w : World} {k : String}
    (h : mapGet w.filecache k = none) : cacheGetFile k w = (none, w) := by
  simp only [cacheGetFile, h]

theorem cacheGetFile_hit {w : World} {k : String} {f : DriveFile} {ts : Nat}
    (h : mapGet w.filecache k = some (f, ts))
    (hv : ¬w.now > ts + CACHE_TTL_SECONDS) :
    cacheGetFile k w = (some f, w) := by
  simp only [cacheGetFile, h]
  rw [if_neg hv]

theorem cacheGetFile_expired {w : World} {k : String} {f : DriveFile} {ts : Nat}
    (hm : mapGet w.filecache k = some (f, ts))
    (hex : w.now > ts + CACHE_TTL_SECONDS) :
    cacheGetFile k w = (none, cacheDelFile k w) := by
  simp only [cacheGetFile, hm]
  rw [if_pos hex]

/-- A valid file-cache entry is served as-is: Stat returns it and changes
nothing. -/
theorem stat_cache_hit {w : World} {k : String} {f : DriveFile} {ts : Nat}
    (h : mapGet w.filecache k = some (f, ts))
    (hv : ¬w.now > ts + CACHE_TTL_SECONDS) :
    Stat k w = (.ok f, w) := by
  rw [Stat, cacheGetFile_hit h hv]

theorem cacheGetChild_frame {k : String} {w : World} {copt : Option String}
    {w1 : World} (h : cacheGetChild k w = (copt, w1)) :
    w1.filecache = w.filecache ∧ w1.now = w.now ∧ w1.store = w.store ∧
      w1.calls = w.calls := by
  rcases hm : mapGet w.childcache k with _ | ⟨cid, ts⟩ <;>
    simp only [cacheGetChild, hm] at h
  · have hw : w = w1 := congrArg Prod.snd h
    subst hw; exact ⟨rfl, rfl, rfl, rfl⟩
  · by_cases hex : w.now > ts + CACHE_TTL_SECONDS
    · rw [if_pos hex] at h
      have hw : ({ w with childcache := mapDel w.childcache k } : World) = w1 :=
        congrArg Prod.snd h
      rw [← hw]; exact ⟨rfl, rfl, rfl, rfl⟩
    · rw [if_neg hex] at h
      have hw : w = w1 := congrArg Prod.snd h
      subst hw; exact ⟨rfl, rfl, rfl, rfl⟩

theorem GdriveChildrenList_frame {parentId : String} {q : Query} {w : World}
    {r : Except GErr (List String)} {w1 : World}
    (h : GdriveChildrenList parentId q w = (r, w1)) :
    w1.filecache = w.filecache ∧ w1.childcache = w.childcache ∧ w1.now = w.now := by
  rw [GdriveChildrenList_eq] at h
  have hw : ({ w with calls := w.calls ++ [.childrenList parentId q] } : World) = w1 :=
    congrArg Prod.snd h
  rw [← hw]; exact ⟨rfl, rfl, rfl⟩

theorem wrapErr_snd {msg : String} {x : Except GErr α × World} :
    (wrapErr msg x).2 = x.2 := by
  rcases x with ⟨r, w⟩
  rcases r with e | a <;> rfl

theorem GdriveFilesGet_frame {fileId : String} {w : World}
    {r : Except GErr DriveFile} {w1 : World}
    (h : GdriveFilesGet fileId w = (r, w1)) :
    w1.filecache = w.filecache ∧ w1.childcache = w.childcache ∧ w1.now = w.now := by
  rw [GdriveFilesGet] at h
  rcases hrw : retryWorld (.filesGet fileId) (fun s => svcFilesGet s fileId) w
    with ⟨r0, w0⟩
  rw [hrw] at h
  have hw : w0 = w1 := by
    have h2 := congrArg Prod.snd h
    rw [wrapErr_snd] at h2
    exact h2
  rcases retryWorldGo_frame hrw with ⟨h1, h2, h3⟩
  rw [← hw]
  exact ⟨h1, h2, h3⟩

/-- The directory walk never touches the file cache or the clock. -/
theorem statWalk_frame :
    ∀ {segs done : List (List Char)} {parent : String} {w : World}
      {r : Except GErr String} {w' : World},
      statWalk segs done parent w = (r, w') →
      w'.filecache = w.filecache ∧ w'.now = w.now := by
  intro segs
  induction segs with
  | nil =>
    intro done parent w r w' h
    simp only [statWalk] at h
    have hw : w = w' := congrArg Prod.snd h
    subst hw; exact ⟨rfl, rfl⟩
  | cons elem rest ih =>
    intro done parent w r w' h
    simp only [statWalk] at h
    split at h
    · rename_i childId w1 heq
      rcases ih h with ⟨i1, i2⟩
      rcases cacheGetChild_frame heq with ⟨c1, c2, _, _⟩
      exact ⟨i1.trans c1, i2.trans c2⟩
    · rename_i w1 heq
      split at h
      · rename_i e w2 heq2
        rcases GdriveChildrenList_frame heq2 with ⟨l1, l2, l3⟩
        rcases cacheGetChild_frame heq with ⟨c1, c2, _, _⟩
        have hw : w2 = w' := congrArg Prod.snd h
        rw [← hw]
        exact ⟨l1.trans c1, l3.trans c2⟩
      · rename_i xs w2 heq2
        rcases GdriveChildrenList_frame heq2 with ⟨l1, l2, l3⟩
        rcases cacheGetChild_frame heq with ⟨c1, c2, _, _⟩
        have hw : w2 = w' := congrArg Prod.snd h
        rw [← hw]
        exact ⟨l1.trans c1, l3.trans c2⟩
      · rename_i w2 heq2
        rcases GdriveChildrenList_frame heq2 with ⟨l1, l2, l3⟩
        rcases cacheGetChild_frame heq with ⟨c1, c2, _, _⟩
        split at h
        · rename_i e w3 heq3
          rcases GdriveChildrenList_frame heq3 with ⟨m1, m2, m3⟩
          have hw : w3 = w' := congrArg Prod.snd h
          rw [← hw]
          exact ⟨(m1.trans l1).trans c1, (m3.trans l3).trans c2⟩
        · rename_i w3 heq3
          rcases GdriveChildrenList_frame heq3 with ⟨m1, m2, m3⟩
          have hw : w3 = w' := congrArg Prod.snd h
          rw [← hw]
          exact ⟨(m1.trans l1).trans c1, (m3.trans l3).trans c2⟩
        · rename_i c w3 heq3
          rcases GdriveChildrenList_frame heq3 with ⟨m1, m2, m3⟩
          rcases ih h with ⟨i1, i2⟩
          refine ⟨i1.trans ?_, i2.trans ?_⟩
          · exact (m1.trans l1).trans c1
          · exact (m3.trans l3).trans c2
        · rename_i x1 x2 xs w3 heq3
          rcases GdriveChildrenList_frame heq3 with ⟨m1, m2, m3⟩
          have hw : w3 = w' := congrArg Prod.snd h
          rw [← hw]
          exact ⟨(m1.trans l1).trans c1, (m3.trans l3).trans c2⟩

/-- The leaf lookup never touches the file cache or the clock. -/
theorem statLeaf_frame {filename parent : String} {w : World}
    {r : Except GErr String} {w' : World}
    (h : statLeaf filename parent w = (r, w')) :
    w'.filecache = w.filecache ∧ w'.now = w.now := by
  rw [statLeaf] at h
  by_cases hf : filename = ""
  · rw [if_pos hf] at h
    have hw : w = w' := congrArg Prod.snd h
    subst hw; exact ⟨rfl, rfl⟩
  · rw [if_neg hf] at h
    split at h
    · rename_i e w1 heq
      rcases GdriveChildrenList_frame heq with ⟨l1, _, l3⟩
      have hw : w1 = w' := congrArg Prod.snd h
      rw [← hw]; exact ⟨l1, l3⟩
    · rename_i w1 heq
      rcases GdriveChildrenList_frame heq with ⟨l1, _, l3⟩
      have hw : w1 = w' := congrArg Prod.snd h
      rw [← hw]; exact ⟨l1, l3⟩
    · rename_i c w1 heq
      rcases GdriveChildrenList_frame heq with ⟨l1, _, l3⟩
      have hw : w1 = w' := congrArg Prod.snd h
      rw [← hw]; exact ⟨l1, l3⟩
    · rename_i x1 x2 xs w1 heq
      rcases GdriveChildrenList_frame heq with ⟨l1, _, l3⟩
      have hw : w1 = w' := congrArg Prod.snd h
      rw [← hw]; exact ⟨l1, l3⟩

theorem walkStep_frame {dirs : String} {w : World} {r1 : Except GErr String}
    {w2 : World}
    (h : (if dirs = "/" then ((.ok "root", w) : Except GErr String × World)
          else statWalk (dirs.data.splitOn '/') [] "root" w) = (r1, w2)) :
    w2.filecache = w.filecache ∧ w2.now = w.now := by
  by_cases hd : dirs = "/"
  · rw [if_pos hd] at h
    have hw : w = w2 := congrArg Prod.snd h
    subst hw; exact ⟨rfl, rfl⟩
  · rw [if_neg hd] at h
    exact statWalk_frame h

/-- A successful resolution stores the result in the file cache under the
reconstructed path, stamped with the current time. -/
theorem statCore_ok_caches {p : String} {w : World} {f : DriveFile} {w' : World}
    (h : statCore p w = (.ok f, w')) (hroot : p ≠ "/")
    (hcanon : (splitPath p).2.2 = p) :
    mapGet w'.filecache p = some (f, w'.now) ∧ w'.now = w.now := by
  rw [statCore, if_neg hroot] at h
  rcases hsp : splitPath p with ⟨dirs, filename, canon⟩
  rw [hsp] at h hcanon
  dsimp only at h
  have hc : canon = p := hcanon
  by_cases hblank : canon = ""
  · rw [if_pos hblank] at h
    exact absurd (congrArg Prod.fst h) (by simp)
  · rw [if_neg hblank] at h
    split at h
    · exact absurd (congrArg Prod.fst h) (by simp)
    · rename_i parent w2 heq2
      split at h
      · exact absurd (congrArg Prod.fst h) (by simp)
      · rename_i objId w3 heq3
        split at h
        · exact absurd (congrArg Prod.fst h) (by simp)
        · rename_i f0 w4 heq4
          have hf : f0 = f := Except.ok.inj (congrArg Prod.fst h)
          have hw : cacheAddFile canon f0 w4 = w' := congrArg Prod.snd h
          subst hf
          rw [← hw, hc]
          refine ⟨mapGet_mapPut_self _ _ _, ?_⟩
          show w4.now = w.now
          rw [(GdriveFilesGet_frame heq4).2.2, (statLeaf_frame heq3).2,
            (walkStep_frame heq2).2]

/-- Resolution never touches file-cache entries under other keys, and never
moves the clock. -/
theorem statCore_preserves {p c : String} {w : World} {r : Except GErr DriveFile}
    {w' : World} (h : statCore p w = (r, w'))
    (hcanon : (splitPath p).2.2 ≠ c) :
    mapGet w'.filecache c = mapGet w.filecache c ∧ w'.now = w.now := by
  rw [statCore] at h
  by_cases hroot : p = "/"
  · rw [if_pos hroot] at h
    rcases GdriveFilesGet_frame h with ⟨h1, _, h3⟩
    exact ⟨by rw [h1], h3⟩
  · rw [if_neg hroot] at h
    rcases hsp : splitPath p with ⟨dirs, filename, canon⟩
    rw [hsp] at h hcanon
    dsimp only at h
    have hc : canon ≠ c := hcanon
    by_cases hblank : canon = ""
    · rw [if_pos hblank] at h
      have hw : w = w' := congrArg Prod.snd h
      subst hw; exact ⟨rfl, rfl⟩
    · rw [if_neg hblank] at h
      split at h
      · rename_i e w2 heq2
        have hw : w2 = w' := congrArg Prod.snd h
        rcases walkStep_frame heq2 with ⟨h1, h2⟩
        rw [← hw]
        exact ⟨by rw [h1], h2⟩
      · rename_i parent w2 heq2
        rcases walkStep_frame heq2 with ⟨h1, h2⟩
        split at h
        · rename_i e w3 heq3
          have hw : w3 = w' := congrArg Prod.snd h
          rcases statLeaf_frame heq3 with ⟨l1, l2⟩
          rw [← hw]
          exact ⟨by rw [l1, h1], l2.trans h2⟩
        · rename_i objId w3 heq3
          rcases statLeaf_frame heq3 with ⟨l1, l2⟩
          split at h
          · rename_i e w4 heq4
            have hw : w4 = w' := congrArg Prod.snd h
            rcases GdriveFilesGet_frame heq4 with ⟨g1, _, g3⟩
            rw [← hw]
            exact ⟨by rw [g1, l1, h1], (g3.trans l2).trans h2⟩
          · rename_i f0 w4 heq4
            rcases GdriveFilesGet_frame heq4 with ⟨g1, _, g3⟩
            have hw : cacheAddFile canon f0 w4 = w' := congrArg Prod.snd h
            rw [← hw]
            refine ⟨?_, (g3.trans l2).trans h2⟩
            show mapGet (mapPut w4.filecache canon (f0, w4.now)) c = _
            rw [mapGet_mapPut_ne _ _ (fun hh => hc hh.symm), g1, l1, h1]

/-- A successful Stat leaves a valid file-cache entry holding the returned
object under the (canonical) path. -/
theorem stat_ok_entry {p : String} {w : World} {f : DriveFile} {w' : World}
    (h : Stat p w = (.ok f, w')) (hroot : p ≠ "/")
    (hcanon : (splitPath p).2.2 = p) :
    ∃ ts, mapGet w'.filecache p = some (f, ts) ∧
      ¬w'.now > ts + CACHE_TTL_SECONDS := by
  rw [Stat] at h
  rcases hm : mapGet w.filecache p with _ | ⟨f0, ts⟩
  · rw [cacheGetFile_none hm] at h
    rcases statCore_ok_caches h hroot hcanon with ⟨h1, _⟩
    exact ⟨w'.now, h1, by omega⟩
  · by_cases hex : w.now > ts + CACHE_TTL_SECONDS
    · rw [cacheGetFile_expired hm hex] at h
      rcases statCore_ok_caches h hroot hcanon with ⟨h1, _⟩
      exact ⟨w'.now, h1, by omega⟩
    · rw [cacheGetFile_hit hm hex] at h
      have hf : f0 = f := Except.ok.inj (congrArg Prod.fst h)
      have hw : w = w' := congrArg Prod.snd h
      subst hf; subst hw
      exact ⟨ts, hm, hex⟩

/-- A successful Stat from a cold cache leaves an entry stamped now. -/
theorem stat_ok_fresh {p : String} {w : World} {f : DriveFile} {w' : World}
    (h : Stat p w = (.ok f, w')) (hroot : p ≠ "/")
    (hcanon : (splitPath p).2.2 = p)
    (hmiss : mapGet w.filecache p = none) :
    mapGet w'.filecache p = some (f, w'.now) ∧ w'.now = w.now := by
  rw [Stat, cacheGetFile_none hmiss] at h
  exact statCore_ok_caches h hroot hcanon

/-- Stat on one path preserves file-cache entries under any other key that is
also not its canonical form, and the clock. -/
theorem stat_preserves_entry {q c : String} {w : World}
    {r : Except GErr DriveFile} {w' : World} (h : Stat q w = (r, w'))
    (hqc : q ≠ c) (hcanon : (splitPath q).2.2 ≠ c) :
    mapGet w'.filecache c = mapGet w.filecache c ∧ w'.now = w.now := by
  rw [Stat] at h
  rcases hm : mapGet w.filecache q with _ | ⟨f0, ts⟩
  · rw [cacheGetFile_none hm] at h
    exact statCore_preserves h hcanon
  · by_cases hex : w.now > ts + CACHE_TTL_SECONDS
    · rw [cacheGetFile_expired hm hex] at h
      rcases statCore_preserves h hcanon with ⟨h1, h2⟩
      refine ⟨?_, h2⟩
      rw [h1]
      show mapGet (mapDel w.filecache q) c = _
      rw [mapGet_mapDel_ne _ (fun hh => hqc hh.symm)]
    · rw [cacheGetFile_hit hm hex] at h
      have hw : w = w' := congrArg Prod.snd h
      subst hw
      exact ⟨rfl, rfl⟩

/-! ## Claim theorems -/

theorem splitOn_all_slash {l : List Char} (h : ∀ c ∈ l, c = '/') :
    ∀ s ∈ l.splitOn '/', s = [] := by
  induction l with
  | nil =>
    intro s hs
    simp only [List.splitOn_nil, List.mem_singleton] at hs
    exact hs
  | cons c rest ih =>
    intro s hs
    have hc : c = '/' := h c (List.mem_cons_self _ _)
    rw [List.splitOn, List.splitOnP_cons, if_pos (by simp [hc])] at hs
    rcases List.mem_cons.mp hs with hs | hs
    · exact hs
    · exact ih (fun d hd => h d (List.mem_cons_of_mem _ hd)) s hs

/-- C9: splitPath collapses repeated, leading and trailing separators:
splitPath "/a//b/c/" yields directory "a/b", leaf "c" and reconstructed path
"a/b/c"; and every input consisting only of separators (including the empty
string) yields three empty strings. -/
theorem splitPath_collapses :
    splitPath "/a//b/c/" = ("a/b", "c", "a/b/c") ∧
      ∀ p : String, (∀ ch ∈ p.data, ch = '/') → splitPath p = ("", "", "") := by
  refine ⟨by decide, ?_⟩
  intro p hp
  have hsegs : splitSegs p.data = [] := by
    rw [splitSegs]
    rw [List.filter_eq_nil_iff]
    intro s hs
    simp [splitOn_all_slash hp s hs]
  rw [splitPath, hsegs]
  rfl

/-- C9 witness: the all-separator clause at the concrete input "//". -/
theorem splitPath_collapses_witness : splitPath "//" = ("", "", "") :=
  splitPath_collapses.2 "//" (by decide)

/-- C2 (code bug): the retry wrapper of util.go retries on an error whose
HTTP status code is 404 — outside the server-error range — because its
condition (code at least 500, or code at most 599) holds for every code.  It
invokes the wrapped call three times (NUM_TRIES), sleeping 1000, 2000 and
3000 milliseconds (proportional to the attempt number), and returns the last
error after exhausting all attempts, where the claim requires an immediate
failure after a single invocation.  (With an error that carries no status
code, the wrapper does fail after one invocation without sleeping.) -/
theorem driveFileOpRetry_retries_on_404 :
    driveFileOpRetry (fun _ => .error (.apiErr 404 "File not found")) =
      (.error (.apiErr 404 "File not found"), 3, [1000, 2000, 3000]) ∧
    driveFileOpRetry (fun _ => .error (.genericErr "plain failure")) =
      (.error (.genericErr "plain failure"), 1, []) := by
  constructor
  · rfl
  · rfl

/-- A world holding only the root folder object, with empty caches, empty
traces and the clock at zero. -/
def rootObj : DriveFile :=
  { id := "root", title := "", mimeType := MIMETYPE_FOLDER, modifiedDate := 0,
    parents := [], trashed := false }

def wRoot : World :=
  { store := { files := [rootObj], nextId := 0 }, filecache := [],
    childcache := [], calls := [], sleeps := [], now := 0 }

/-- C3 counterexample: Stat "/" does issue a remote call.  Starting from a
world with an empty call trace, the trace after Stat "/" holds the direct
fetch of the well-known identifier root — it is not empty. -/
theorem stat_root_issues_remote_call :
    (Stat "/" wRoot).2.calls = [RemoteCall.filesGet "root"] ∧
      (Stat "/" wRoot).2.calls ≠ [] ∧ wRoot.calls = [] := by
  decide

/-- C3 amended: Stat "/" resolves the root with no traversal and no listing:
when "/" is not cached, it issues exactly one remote call — the direct fetch
of the fixed well-known identifier root — and returns the fetched object.
The identifier itself is determined without any remote call; fetching the
object is one call. -/
theorem stat_root_direct_fetch (w : World) (f : DriveFile)
    (hmiss : mapGet w.filecache "/" = none)
    (hroot : findFile w.store.files "root" = some f) :
    Stat "/" w =
      (.ok f, { w with calls := w.calls ++ [RemoteCall.filesGet "root"] }) := by
  rw [Stat, cacheGetFile_none hmiss]
  show statCore "/" w = _
  unfold statCore
  rw [if_pos rfl]
  exact GdriveFilesGet_ok hroot

/-- C3 witness for the amended claim. -/
theorem stat_root_direct_fetch_witness :
    Stat "/" wRoot =
      (.ok rootObj, { wRoot with calls := wRoot.calls ++ [RemoteCall.filesGet "root"] }) :=
  stat_root_direct_fetch wRoot rootObj (by decide) (by decide)

/-- C5: Mkdir is idempotent.  If Mkdir succeeds, running it again on the
resulting state returns the very same object (same identifier) and leaves
the world untouched: no remote call at all is made — in particular no second
insert — because the existing object is found (via the cache entry the first
call left) and returned unchanged. -/
theorem Mkdir_idempotent (p : String) (w : World) (f : DriveFile) (w1 : World)
    (h : Mkdir p w = (.ok f, w1)) : Mkdir p w1 = (.ok f, w1) := by
  rw [Mkdir] at h ⊢
  rcases hsp : splitPath p with ⟨pathname, dirname, canon⟩
  dsimp only at h ⊢
  rw [hsp] at h
  dsimp only at h
  by_cases hblank : canon = ""
  · rw [if_pos hblank] at h
    exact absurd (congrArg Prod.fst h) (by simp)
  · rw [if_neg hblank] at h ⊢
    have hcanon : (splitPath p).2.2 ≠ "" := by rw [hsp]; exact hblank
    have hidem : (splitPath canon).2.2 = canon := by
      have hi := splitPath_idem p
      rw [hsp] at hi
      rw [hi]
    have hroot : canon ≠ "/" := by
      have hs := canon_ne_slash hcanon
      rw [hsp] at hs
      exact hs
    split at h
    · rename_i f0 w1' heq
      have hf : f0 = f := Except.ok.inj (congrArg Prod.fst h)
      have hw : w1' = w1 := congrArg Prod.snd h
      subst hf; subst hw
      rcases stat_ok_entry heq hroot hidem with ⟨ts, hentry, hval⟩
      rw [stat_cache_hit hentry hval]
    · rename_i e w2 heq
      by_cases honf : IsObjectNotFound e = false
      · rw [if_pos honf] at h
        exact absurd (congrArg Prod.fst h) (by simp)
      · rw [if_neg honf] at h
        split at h
        · exact absurd (congrArg Prod.fst h) (by simp)
        · rename_i parentId w3 heq2
          split at h
          · exact absurd (congrArg Prod.fst h) (by simp)
          · rename_i nf w4 heq3
            have hf : nf = f := Except.ok.inj (congrArg Prod.fst h)
            have hw : cacheAddFile canon nf w4 = w1 := congrArg Prod.snd h
            have hentry : mapGet w1.filecache canon = some (nf, w1.now) := by
              rw [← hw]
              exact mapGet_mapPut_self _ _ _
            rw [stat_cache_hit hentry (by omega), hf]

/-- C6: a canonical path freshly resolved by a successful Stat is served from
the resolved-object cache by a second Stat issued within the TTL window: with
no intervening mutation (only the clock advancing by at most the TTL), the
second call returns the same object and leaves the world — including the
remote-call trace — exactly unchanged, so it issues zero remote calls. -/
theorem stat_cached_within_ttl (p : String) (w : World) (f : DriveFile)
    (w1 : World) (d : Nat)
    (hcanon : (splitPath p).2.2 = p) (hroot : p ≠ "/")
    (hmiss : mapGet w.filecache p = none)
    (h : Stat p w = (.ok f, w1)) (hd : d ≤ CACHE_TTL_SECONDS) :
    Stat p (advanceTime d w1) = (.ok f, advanceTime d w1) := by
  rcases stat_ok_fresh h hroot hcanon hmiss with ⟨hentry, _⟩
  have hentry2 : mapGet (advanceTime d w1).filecache p = some (f, w1.now) := hentry
  apply stat_cache_hit hentry2
  show ¬w1.now + d > w1.now + CACHE_TTL_SECONDS
  omega

theorem moveTail_ok_cache {srcId dstLeaf dstDirId srcParentId srcPath dstPath : String}
    {w : World} {f : DriveFile} {w' : World}
    (h : moveTail srcId dstLeaf dstDirId srcParentId srcPath dstPath w = (.ok f, w'))
    (hne : srcPath ≠ dstPath) :
    mapGet w'.filecache dstPath = some (f, w'.now) ∧
      mapGet w'.filecache srcPath = none := by
  rw [moveTail] at h
  rcases hp : GdriveFilesPatch srcId dstLeaf none [dstDirId] [srcParentId] w with ⟨r, w1⟩
  rw [hp] at h
  rcases r with e | g
  · dsimp only at h
    exact absurd (congrArg Prod.fst h) (by simp)
  · dsimp only at h
    have hg : g = f := Except.ok.inj (congrArg Prod.fst h)
    have hw : cacheAddFile dstPath g (cacheDelFile srcPath w1) = w' :=
      congrArg Prod.snd h
    subst hg
    rw [← hw]
    constructor
    · exact mapGet_mapPut_self _ _ _
    · show mapGet (mapPut (cacheDelFile srcPath w1).filecache dstPath _) srcPath = none
      rw [mapGet_mapPut_ne _ _ hne]
      exact mapGet_mapDel_self _ _

/-- C7: a successful Move deletes the file-cache entry under the canonical
source path and stores the patched object (the object Move returns) under
the canonical destination path, stamped with the current time, before
returning. -/
theorem Move_updates_cache (src dst : String) (w : World) (f : DriveFile)
    (w1 : World) (h : Move src dst w = (.ok f, w1))
    (hne : (splitPath src).2.2 ≠ (splitPath dst).2.2) :
    mapGet w1.filecache ((splitPath dst).2.2) = some (f, w1.now) ∧
      mapGet w1.filecache ((splitPath src).2.2) = none := by
  rw [Move] at h
  rcases hs1 : splitPath src with ⟨srcDir, sfn, srcPath⟩
  rcases hs2 : splitPath dst with ⟨dstDir, dstLeaf, dstPath⟩
  simp only [hs1, hs2] at h hne ⊢
  by_cases hg : srcPath = "" ∨ dstPath = ""
  · rw [if_pos hg] at h
    exact absurd (congrArg Prod.fst h) (by simp)
  · rw [if_neg hg] at h
    split at h
    · exact absurd (congrArg Prod.fst h) (by simp)
    · rename_i srcParentObj w2 heq1
      split at h
      · exact absurd (congrArg Prod.fst h) (by simp)
      · rename_i srcObj w3 heq2
        split at h
        · exact absurd (congrArg Prod.fst h) (by simp)
        · rename_i dstDirObj w4 heq3
          split at h
          · rename_i dstFileObj w5 heq4
            split at h
            · exact absurd (congrArg Prod.fst h) (by simp)
            · rename_i tObj w6 heqT
              exact moveTail_ok_cache h hne
          · rename_i e w5 heq4
            by_cases honf : IsObjectNotFound e = false
            · rw [if_pos honf] at h
              exact absurd (congrArg Prod.fst h) (by simp)
            · rw [if_neg honf] at h
              exact moveTail_ok_cache h hne

theorem truncSec_trunc_add_one (t : Nat) :
    truncSec (truncSec t + 1) = truncSec t := by
  unfold truncSec NANOS_PER_SECOND
  omega

/-- C8: after a successful SetModifiedDate(path, t), the returned object's
decoded modification date (ModifiedDate truncates to whole seconds) is t
truncated to whole seconds; an immediate Stat(path) returns that very object
(served from the refreshed cache entry, with the world unchanged); and the
date sent to the store in the patch call is t truncated to whole seconds
plus one nanosecond. -/
theorem SetModifiedDate_roundtrip (p : String) (t : Nat) (w : World)
    (f : DriveFile) (w1 : World)
    (h : SetModifiedDate p t w = (.ok f, w1)) :
    ModifiedDate f = truncSec t ∧
      Stat p w1 = (.ok f, w1) ∧
      RemoteCall.filesPatch f.id "" (some (truncSec t + 1)) [] [] ∈ w1.calls := by
  rw [SetModifiedDate] at h
  split at h
  · exact absurd (congrArg Prod.fst h) (by simp)
  · rename_i f0 w2 heq
    dsimp only at h
    split at h
    · exact absurd (congrArg Prod.fst h) (by simp)
    · rename_i g w3 heqp
      have hgf : g = f := Except.ok.inj (congrArg Prod.fst h)
      have hw : cacheAddFile p g w3 = w1 := congrArg Prod.snd h
      rcases GdriveFilesPatch_inv heqp with ⟨f1, hfind, hg, hw3⟩
      have hmd : g.modifiedDate = truncSec t + 1 := by
        rw [hg]
        rfl
      have hid : g.id = f0.id := by
        rw [hg]
        show f1.id = f0.id
        exact findFile_id hfind
      refine ⟨?_, ?_, ?_⟩
      · rw [← hgf, ModifiedDate, hmd, truncSec_trunc_add_one]
      · have hentry : mapGet w1.filecache p = some (g, w1.now) := by
          rw [← hw]
          exact mapGet_mapPut_self _ _ _
        rw [stat_cache_hit hentry (by omega), hgf]
      · have hcalls : w1.calls = w2.calls ++
            [RemoteCall.filesPatch f0.id "" (some (truncSec t + 1)) [] []] := by
          rw [← hw]
          show w3.calls = _
          rw [hw3]
        rw [← hgf, hid, hcalls]
        exact List.mem_append.mpr (Or.inr (List.mem_singleton.mpr rfl))

def folderA : DriveFile :=
  { id := "idA", title := "a", mimeType := MIMETYPE_FOLDER, modifiedDate := 0,
    parents := ["root"], trashed := false }

def folderD : DriveFile :=
  { id := "idD", title := "d", mimeType := MIMETYPE_FOLDER, modifiedDate := 0,
    parents := ["idA"], trashed := false }

def fileF : DriveFile :=
  { id := "idF", title := "f", mimeType := "text/plain", modifiedDate := 0,
    parents := ["idA"], trashed := false }

/-- A world holding the root, a folder a, a folder a/d and a plain file a/f. -/
def wMove : World :=
  { store := { files := [rootObj, folderA, folderD, fileF], nextId := 0 },
    filecache := [], childcache := [], calls := [], sleeps := [], now := 0 }

/-- C1 (code bug): Move to a destination where a FOLDER already exists does
not fail — it trashes the folder and re-parents the source anyway.  In wMove
the destination path "a/d" holds the folder folderD; Move "a/f" "a/d"
succeeds with the renamed file, the trash call on the folder's identifier is
in the trace, and the folder is trashed in the final store — where the claim
(with the spec, and with the earlier revision of Move, which aborted when
IsDir held of the destination object) requires Move to fail without trashing
anything. -/
theorem Move_trashes_folder_destination :
    IsDir folderD = true ∧
    (Move "a/f" "a/d" wMove).1 =
      .ok { id := "idF", title := "d", mimeType := "text/plain",
            modifiedDate := 0, parents := ["idA"], trashed := false } ∧
    RemoteCall.filesTrash "idD" ∈ (Move "a/f" "a/d" wMove).2.calls ∧
    findFile (Move "a/f" "a/d" wMove).2.store.files "idD" =
      some { folderD with trashed := true } := by
  decide

/-- The reconstructed form of the directory component differs from the full
reconstructed path: it has one component fewer. -/
theorem dirCanon_ne_canon {p : String} (h : (splitPath p).2.2 ≠ "") :
    (splitPath ((splitPath p).1)).2.2 ≠ (splitPath p).2.2 := by
  intro heq
  have h1 := splitSegs_canon ((splitPath p).1)
  rw [heq, splitSegs_canon p, splitSegs_dir p] at h1
  have hlen := congrArg List.length h1
  rw [List.length_dropLast] at hlen
  have hne := segs_ne_nil_of_canon_ne h
  have hpos : 0 < (splitSegs p.data).length := List.length_pos.mpr hne
  omega

/-- Equal reconstructed (canonical) paths force equal split triples: the
triple is a function of the component list, which the canonical path
determines. -/
theorem canon_eq_split_eq {a b : String}
    (h : (splitPath a).2.2 = (splitPath b).2.2) : splitPath a = splitPath b := by
  have ha := splitSegs_canon a
  have hb := splitSegs_canon b
  rw [h] at ha
  show pathFromSegs (splitSegs a.data) = pathFromSegs (splitSegs b.data)
  rw [← ha, hb]

/-- C10: when source and destination normalize to the same canonical path —
at which an object exists, as witnessed by the success of the call — Move
first trashes that object, which is the source object itself, and then
issues the parent/title patch on the same identifier.  A self-move destroys
the object being moved: the trash call on the returned object's identifier
immediately precedes the final patch call in the trace, and the object is
trashed in the final store. -/
theorem Move_self_trashes_source (src dst : String) (w : World) (f : DriveFile)
    (w1 : World) (hcanon : (splitPath src).2.2 = (splitPath dst).2.2)
    (h : Move src dst w = (.ok f, w1)) :
    f.trashed = true ∧
      findFile w1.store.files f.id = some f ∧
      (∃ l dstLeaf dirId parId, w1.calls =
        l ++ [RemoteCall.filesTrash f.id,
              RemoteCall.filesPatch f.id dstLeaf none [dirId] [parId]]) := by
  have hsplit : splitPath src = splitPath dst := canon_eq_split_eq hcanon
  rw [Move] at h
  rcases hs : splitPath src with ⟨dir, leaf, canon⟩
  have hs2 : splitPath dst = (dir, leaf, canon) := by rw [← hsplit, hs]
  simp only [hs, hs2] at h
  by_cases hblank : canon = ""
  · rw [if_pos (Or.inl hblank)] at h
    exact absurd (congrArg Prod.fst h) (by simp)
  · rw [if_neg (by simp [hblank])] at h
    have hcanon_ne : (splitPath src).2.2 ≠ "" := by rw [hs]; exact hblank
    have hidem : (splitPath canon).2.2 = canon := by
      have hi := splitPath_idem src
      rw [hs] at hi
      rw [hi]
    have hroot' : canon ≠ "/" := by
      have hcs := canon_ne_slash hcanon_ne
      rw [hs] at hcs
      exact hcs
    have hdirne : dir ≠ canon := by
      have hd := dir_ne_canon hcanon_ne
      rw [hs] at hd
      exact hd
    have hdircanon : (splitPath dir).2.2 ≠ canon := by
      have hd := dirCanon_ne_canon hcanon_ne
      rw [hs] at hd
      exact hd
    split at h
    · exact absurd (congrArg Prod.fst h) (by simp)
    · rename_i p1 w2 heq1
      split at h
      · exact absurd (congrArg Prod.fst h) (by simp)
      · rename_i srcObj w3 heq2
        split at h
        · exact absurd (congrArg Prod.fst h) (by simp)
        · rename_i dObj w4 heq3
          rcases stat_ok_entry heq2 hroot' hidem with ⟨ts, hentry3, hval3⟩
          rcases stat_preserves_entry heq3 hdirne hdircanon with ⟨hpres, hnow⟩
          have hentry4 : mapGet w4.filecache canon = some (srcObj, ts) := by
            rw [hpres]; exact hentry3
          have hval4 : ¬w4.now > ts + CACHE_TTL_SECONDS := by
            rw [hnow]; exact hval3
          rw [stat_cache_hit hentry4 hval4] at h
          dsimp only at h
          split at h
          · exact absurd (congrArg Prod.fst h) (by simp)
          · rename_i tObj w5 heqT
            rcases GdriveFilesTrash_inv heqT with ⟨f4, hfind4, htObj, hw5⟩
            rw [moveTail] at h
            rcases hp : GdriveFilesPatch srcObj.id leaf none [dObj.id] [p1.id]
                (cacheDelFile canon w5) with ⟨r, wp⟩
            rw [hp] at h
            rcases r with e | g
            · dsimp only at h
              exact absurd (congrArg Prod.fst h) (by simp)
            · dsimp only at h
              have hgf : g = f := Except.ok.inj (congrArg Prod.fst h)
              have hw1 : cacheAddFile canon g (cacheDelFile canon wp) = w1 :=
                congrArg Prod.snd h
              rcases GdriveFilesPatch_inv hp with ⟨f5, hfind5, hg, hwp⟩
              have hf4id : f4.id = srcObj.id := findFile_id hfind4
              have htid : tObj.id = srcObj.id := by
                rw [htObj]
                show f4.id = srcObj.id
                exact hf4id
              have hfind5' : findFile (cacheDelFile canon w5).store.files
                  srcObj.id = some tObj := by
                show findFile w5.store.files srcObj.id = some tObj
                rw [hw5]
                show findFile (setFile w4.store.files srcObj.id tObj)
                  srcObj.id = some tObj
                exact findFile_setFile_self hfind4 tObj htid
              have hf5 : f5 = tObj :=
                (Option.some.inj (hfind5'.symm.trans hfind5)).symm
              have hgid : g.id = srcObj.id := by
                rw [hg]
                show f5.id = srcObj.id
                rw [hf5, htid]
              have htrash : g.trashed = true := by
                rw [hg]
                show f5.trashed = true
                rw [hf5, htObj]
              refine ⟨by rw [← hgf]; exact htrash, ?_, ?_⟩
              · rw [← hw1]
                show findFile wp.store.files f.id = some f
                rw [hwp]
                show findFile (setFile (cacheDelFile canon w5).store.files
                  srcObj.id g) f.id = some f
                rw [← hgf, hgid]
                exact findFile_setFile_self hfind5' g hgid
              · refine ⟨w4.calls, leaf, dObj.id, p1.id, ?_⟩
                rw [← hw1]
                show wp.calls = _
                rw [hwp]
                show (cacheDelFile canon w5).calls ++
                    [RemoteCall.filesPatch srcObj.id leaf none [dObj.id] [p1.id]] = _
                rw [show (cacheDelFile canon w5).calls = w5.calls from rfl, hw5]
                rw [← hgf, hgid]
                show (w4.calls ++ [RemoteCall.filesTrash srcObj.id]) ++
                    [RemoteCall.filesPatch srcObj.id leaf none [dObj.id] [p1.id]] = _
                rw [List.append_assoc]
                rfl

theorem cacheGetChild_none {w : World} {k : String}
    (h : mapGet w.childcache k = none) : cacheGetChild k w = (none, w) := by
  simp only [cacheGetChild, h]

/-- C4: duplicate siblings are rejected, never silently resolved.  First
part: when the walk reaches a parent whose folder children of the current
title (non-trashed, with no file child of that title shadowing it) number
two or more, it stops with the duplicate-directory error, a plain formatted
error for which IsObjectNotFound is false.  Second part: the same for two or
more children (of any kind) matching the leaf name.  Third and fourth parts:
Stat surfaces a directory-walk error unchanged, and surfaces the leaf
lookup's error unchanged — so the duplicate errors of the first two parts
are exactly what Stat returns on such paths. -/
theorem stat_duplicate_rejected :
    (∀ (w : World) (elem : List Char) (rest done : List (List Char))
        (parent : String),
      mapGet w.childcache (⟨joinSegs (done ++ [elem])⟩ : String) = none →
      listChildren w.store parent ⟨⟨elem⟩, .neFolder⟩ = [] →
      2 ≤ (listChildren w.store parent ⟨⟨elem⟩, .eqFolder⟩).length →
      ∃ msg w2, statWalk (elem :: rest) done parent w =
          (.error (.genericErr msg), w2) ∧
        IsObjectNotFound (.genericErr msg) = false) ∧
    (∀ (filename parent : String) (w : World),
      filename ≠ "" →
      2 ≤ (listChildren w.store parent ⟨filename, .anyMime⟩).length →
      ∃ msg w2, statLeaf filename parent w = (.error (.genericErr msg), w2) ∧
        IsObjectNotFound (.genericErr msg) = false) ∧
    (∀ (p dirs filename canon : String) (w : World) (e : GErr) (w2 : World),
      splitPath p = (dirs, filename, canon) → canon ≠ "" → p ≠ "/" →
      mapGet w.filecache p = none → dirs ≠ "/" →
      statWalk (dirs.data.splitOn '/') [] "root" w = (.error e, w2) →
      Stat p w = (.error e, w2)) ∧
    (∀ (p dirs filename canon parent : String) (w w2 : World) (e : GErr)
        (w3 : World),
      splitPath p = (dirs, filename, canon) → canon ≠ "" → p ≠ "/" →
      mapGet w.filecache p = none →
      (if dirs = "/" then ((.ok "root", w) : Except GErr String × World)
       else statWalk (dirs.data.splitOn '/') [] "root" w) = (.ok parent, w2) →
      statLeaf filename parent w2 = (.error e, w3) →
      Stat p w = (.error e, w3)) := by
  refine ⟨?_, ?_, ?_, ?_⟩
  · intro w elem rest done parent hmiss hfiles hdup
    have e1 : cacheGetChild (⟨joinSegs (done ++ [elem])⟩ : String) w = (none, w) :=
      cacheGetChild_none hmiss
    rcases hxs : listChildren w.store parent ⟨⟨elem⟩, .eqFolder⟩
      with _ | ⟨c1, _ | ⟨c2, cs⟩⟩
    · rw [hxs] at hdup
      simp at hdup
    · rw [hxs] at hdup
      simp at hdup
    · simp only [statWalk, e1, GdriveChildrenList_eq, hfiles, hxs]
      exact ⟨_, _, rfl, rfl⟩
  · intro filename parent w hfn hdup
    rcases hxs : listChildren w.store parent ⟨filename, .anyMime⟩
      with _ | ⟨c1, _ | ⟨c2, cs⟩⟩
    · rw [hxs] at hdup
      simp at hdup
    · rw [hxs] at hdup
      simp at hdup
    · simp only [statLeaf, if_neg hfn, GdriveChildrenList_eq, hxs]
      exact ⟨_, _, rfl, rfl⟩
  · intro p dirs filename canon w e w2 hsp hblank hroot hmiss hdirs hwalk
    rw [Stat, cacheGetFile_none hmiss]
    show statCore p w = _
    unfold statCore
    rw [if_neg hroot, hsp]
    dsimp only
    rw [if_neg hblank, if_neg hdirs, hwalk]
  · intro p dirs filename canon parent w w2 e w3 hsp hblank hroot hmiss
      hwalkok hleaf
    rw [Stat, cacheGetFile_none hmiss]
    show statCore p w = _
    unfold statCore
    rw [if_neg hroot, hsp]
    dsimp only
    rw [if_neg hblank, hwalkok]
    dsimp only
    rw [hleaf]

/-! ## Witness scenarios -/

/-- A plain file f directly under the root. -/
def fileR : DriveFile :=
  { id := "idF", title := "f", mimeType := "text/plain", modifiedDate := 0,
    parents := ["root"], trashed := false }

def wF : World :=
  { store := { files := [rootObj, fileR], nextId := 0 }, filecache := [],
    childcache := [], calls := [], sleeps := [], now := 0 }

/-- Two sibling folders with the same title a under the root. -/
def dupA1 : DriveFile :=
  { id := "idA1", title := "a", mimeType := MIMETYPE_FOLDER, modifiedDate := 0,
    parents := ["root"], trashed := false }

def dupA2 : DriveFile :=
  { id := "idA2", title := "a", mimeType := MIMETYPE_FOLDER, modifiedDate := 0,
    parents := ["root"], trashed := false }

def wDup : World :=
  { store := { files := [rootObj, dupA1, dupA2], nextId := 0 }, filecache := [],
    childcache := [], calls := [], sleeps := [], now := 0 }

/-- C4 witness: in wDup — two non-trashed folders titled a under the root —
the walk and the leaf lookup both stop with the duplicate error, and Stat on
the paths "a/b" and "a" returns exactly those errors. -/
theorem stat_duplicate_rejected_witness :
    (∃ msg w2, statWalk ["a".data] [] "root" wDup =
        (.error (.genericErr msg), w2) ∧
      IsObjectNotFound (.genericErr msg) = false) ∧
    (∃ msg w2, statLeaf "a" "root" wDup = (.error (.genericErr msg), w2) ∧
      IsObjectNotFound (.genericErr msg) = false) ∧
    Stat "a/b" wDup =
      (.error (.genericErr "Stat: More than one directory exists in path"),
       { wDup with calls :=
          [RemoteCall.childrenList "root" ⟨"a", .neFolder⟩,
           RemoteCall.childrenList "root" ⟨"a", .eqFolder⟩] }) ∧
    Stat "a" wDup =
      (.error (.genericErr "Stat: More than one file/directory exists in path"),
       { wDup with calls := [RemoteCall.childrenList "root" ⟨"a", .anyMime⟩] }) := by
  refine ⟨?_, ?_, ?_, ?_⟩
  · exact stat_duplicate_rejected.1 wDup "a".data [] [] "root"
      (by decide) (by decide) (by decide)
  · exact stat_duplicate_rejected.2.1 "a" "root" wDup (by decide) (by decide)
  · exact stat_duplicate_rejected.2.2.1 "a/b" "a" "b" "a/b" wDup
      (.genericErr "Stat: More than one directory exists in path")
      ({ wDup with calls :=
          [RemoteCall.childrenList "root" ⟨"a", .neFolder⟩,
           RemoteCall.childrenList "root" ⟨"a", .eqFolder⟩] })
      (by decide) (by decide) (by decide) (by decide) (by decide) (by decide)
  · exact stat_duplicate_rejected.2.2.2 "a" "/" "a" "/a" "root" wDup wDup
      (.genericErr "Stat: More than one file/directory exists in path")
      ({ wDup with calls := [RemoteCall.childrenList "root" ⟨"a", .anyMime⟩] })
      (by decide) (by decide) (by decide) (by decide) (by decide) (by decide)

/-- The folder object Mkdir "a" creates in wRoot, and the resulting state. -/
def f5a : DriveFile :=
  { id := "obj0", title := "a", mimeType := MIMETYPE_FOLDER, modifiedDate := 0,
    parents := ["root"], trashed := false }

def w5a : World :=
  { wRoot with
    store := { files := [rootObj, f5a], nextId := 1 }
    filecache := [("/a", f5a, 0)]
    calls := [RemoteCall.childrenList "root" ⟨"a", .anyMime⟩,
              RemoteCall.filesGet "root",
              RemoteCall.filesInsert false "a" "root" MIMETYPE_FOLDER] }

/-- C5 witness: after Mkdir "a" on the root-only world, a second Mkdir "a"
returns the same object and leaves the state untouched. -/
theorem Mkdir_idempotent_witness : Mkdir "a" w5a = (.ok f5a, w5a) :=
  Mkdir_idempotent "a" wRoot f5a w5a (by decide)

/-- The state after a fresh Stat "a/f" in wMove. -/
def w6a : World :=
  { wMove with
    filecache := [("a/f", fileF, 0)]
    childcache := [("a", "idA", 0)]
    calls := [RemoteCall.childrenList "root" ⟨"a", .neFolder⟩,
              RemoteCall.childrenList "root" ⟨"a", .eqFolder⟩,
              RemoteCall.childrenList "idA" ⟨"f", .anyMime⟩,
              RemoteCall.filesGet "idF"] }

/-- C6 witness: sixty seconds after a fresh Stat "a/f", a second Stat "a/f"
returns the same object from the cache and changes nothing. -/
theorem stat_cached_within_ttl_witness :
    Stat "a/f" (advanceTime 60 w6a) = (.ok fileF, advanceTime 60 w6a) :=
  stat_cached_within_ttl "a/f" wMove fileF w6a 60
    (by decide) (by decide) (by decide) (by decide) (by decide)

/-- The result of Move "f" "g" in wF: the file renamed to g, and the state. -/
def f7a : DriveFile :=
  { id := "idF", title := "g", mimeType := "text/plain", modifiedDate := 0,
    parents := ["root"], trashed := false }

def w7a : World :=
  { wF with
    store := { files := [rootObj, f7a], nextId := 0 }
    filecache := [("/g", f7a, 0)]
    calls := [RemoteCall.filesGet "root",
              RemoteCall.childrenList "root" ⟨"f", .anyMime⟩,
              RemoteCall.filesGet "idF",
              RemoteCall.filesGet "root",
              RemoteCall.childrenList "root" ⟨"g", .anyMime⟩,
              RemoteCall.filesPatch "idF" "g" none ["root"] ["root"]] }

/-- C7 witness: after Move "f" "g" in wF the destination entry holds the
patched object and the source entry is gone. -/
theorem Move_updates_cache_witness :
    mapGet w7a.filecache ((splitPath "g").2.2) = some (f7a, w7a.now) ∧
      mapGet w7a.filecache ((splitPath "f").2.2) = none :=
  Move_updates_cache "f" "g" wF f7a w7a (by decide) (by decide)

/-- The result of SetModifiedDate "/f" 5500000007 in wF (5.5 seconds plus
7 nanoseconds: stored as 5 seconds plus 1 nanosecond). -/
def f8a : DriveFile :=
  { id := "idF", title := "f", mimeType := "text/plain",
    modifiedDate := 5000000001, parents := ["root"], trashed := false }

def w8a : World :=
  { wF with
    store := { files := [rootObj, f8a], nextId := 0 }
    filecache := [("/f", f8a, 0)]
    calls := [RemoteCall.childrenList "root" ⟨"f", .anyMime⟩,
              RemoteCall.filesGet "idF",
              RemoteCall.filesPatch "idF" "" (some 5000000001) [] []] }

/-- C8 witness at t = 5500000007 ns. -/
theorem SetModifiedDate_roundtrip_witness :
    ModifiedDate f8a = truncSec 5500000007 ∧
      Stat "/f" w8a = (.ok f8a, w8a) ∧
      RemoteCall.filesPatch f8a.id "" (some (truncSec 5500000007 + 1)) [] [] ∈
        w8a.calls :=
  SetModifiedDate_roundtrip "/f" 5500000007 wF f8a w8a (by decide)

/-- The result of the self-move Move "f" "/f/" in wF: both arguments
normalize to the canonical path "/f", and the file comes back trashed. -/
def f10a : DriveFile :=
  { id := "idF", title := "f", mimeType := "text/plain", modifiedDate := 0,
    parents := ["root"], trashed := true }

def w10a : World :=
  { wF with
    store := { files := [rootObj, f10a], nextId := 0 }
    filecache := [("/f", f10a, 0)]
    calls := [RemoteCall.filesGet "root",
              RemoteCall.childrenList "root" ⟨"f", .anyMime⟩,
              RemoteCall.filesGet "idF",
              RemoteCall.filesGet "root",
              RemoteCall.filesTrash "idF",
              RemoteCall.filesPatch "idF" "f" none ["root"] ["root"]] }

/-- C10 witness: the self-move Move "f" "/f/" trashes the moved file itself
before patching it. -/
theorem Move_self_trashes_source_witness :
    f10a.trashed = true ∧
      findFile w10a.store.files f10a.id = some f10a ∧
      (∃ l dstLeaf dirId parId, w10a.calls =
        l ++ [RemoteCall.filesTrash f10a.id,
              RemoteCall.filesPatch f10a.id dstLeaf none [dirId] [parId]]) :=
  Move_self_trashes_source "f" "/f/" wF f10a w10a (by decide) (by decide)

end Godrive
